import Mathlib

/-!
# Verification of the tract-mapping scripts (tsa)

Shallow embedding of `src/process_opportunity.py` and
`src/process_race_demo.py`: pandas cell values, CSV type inference,
PL-file reading with encoding fallback, the fixed-position demographic
extraction, the dominant-race argmax, the left join used by both
merges, and the renderers' color mappings and manually built legends.
-/

set_option autoImplicit false

namespace TSA

/-- A pandas cell value: an inferred integer, a string, or a missing
value (NaN).  Cells of a `dtype=str` read are always `str`. -/
inductive Value where
  | int (n : Int)
  | str (s : String)
  | na
deriving DecidableEq, Repr

/-- `Series.astype(str)` on one cell: Python `str()` of the value.
`str` of an `int` is its decimal representation (leading zeros gone),
`str` of a string is itself, `str` of NaN is the string `"nan"`. -/
def astypeStr : Value → Value
  | .int n => .str (toString n)
  | .str s => .str s
  | .na => .str "nan"

/-- Decimal digits to a number, most significant first; fails on the
first non-digit character. -/
def digitsToNat (acc : Nat) : List Char → Option Nat
  | [] => some acc
  | c :: rest =>
    if c.isDigit then digitsToNat (10 * acc + (c.toNat - 48)) rest
    else none

/-- A nonempty all-digit character list as a number. -/
def parseDigits : List Char → Option Nat
  | [] => none
  | l => digitsToNat 0 l

/-- Decimal integer parsing (optional leading minus), the numeric
grammar shared by pandas `read_csv` inference and `pd.to_numeric` on
the integer-valued census fields. -/
def parseInt (s : String) : Option Int :=
  match s.data with
  | '-' :: rest => (parseDigits rest).map fun n => -(n : Int)
  | l => (parseDigits l).map fun n => (n : Int)

/-- Model of pandas `read_csv` type inference on a cell of an
all-numeric column (the default used for the ROI file at
`process_opportunity.py:112`, which passes no `dtype`): a string of
digits is parsed as an integer, so `"04001"` becomes the number 4001;
anything else stays a string. -/
def readCsvCell (s : String) : Value :=
  match parseInt s with
  | some n => .int n
  | none => .str s

/-- The ROI-side join key produced at `process_opportunity.py:90`:
the raw CSV cell goes through `read_csv` inference and then
`astype(str)`. -/
def roiJoinKey (raw : String) : Value := astypeStr (readCsvCell raw)

/-- The geometry-side join key at `process_opportunity.py:91`: the
GEOID column is already a string (pygris returns it as text and
`get_tracts` runs `astype(str)` at line 20), so `astype(str)` keeps
the original characters. -/
def geoJoinKey (raw : String) : Value := astypeStr (.str raw)

/-- First-match association lookup, the model of Python `dict`
indexing and of pandas column access by name. -/
def lookupKey {κ α : Type} [DecidableEq κ] (k : κ) : List (κ × α) → Option α
  | [] => none
  | c :: rest => if c.1 = k then some c.2 else lookupKey k rest

/-- `pd.to_numeric(..., errors=coerce)` on one cell of a `dtype=str`
frame: parse an integer, otherwise NaN (`none`). -/
def toNumeric (s : String) : Option Int := parseInt s

/-- NaN-propagating subtraction, the pandas `-` used for
`white_alone - hispanic` at `process_race_demo.py:107`. -/
def subNA : Option Int → Option Int → Option Int
  | some a, some b => some (a - b)
  | _, _ => none

/-- One step of the fold behind `DataFrame.idxmax(axis=1)`: NaN cells
are skipped, and a later cell displaces the current maximum only when
it is strictly greater, so the first column attaining the maximum
wins. -/
def idxmaxStep (acc : Option (String × Int)) (c : String × Option Int) :
    Option (String × Int) :=
  match c.2 with
  | none => acc
  | some v =>
    match acc with
    | none => some (c.1, v)
    | some a => if v > a.2 then some (c.1, v) else acc

/-- `row.idxmax()` over labelled cells: the label of the first cell
holding the maximum non-NaN value, `none` when every cell is NaN. -/
def idxmax (cells : List (String × Option Int)) : Option String :=
  (cells.foldl idxmaxStep none).map Prod.fst

/-- The fixed category order of `race_cols` at
`process_race_demo.py:110-111`. -/
def raceCols : List String :=
  ["white_nh", "black_alone", "aian_alone", "asian_alone",
   "nhpi_alone", "other_alone", "hispanic"]

/-- The labelled row handed to `idxmax` at `process_race_demo.py:112`,
in the fixed `race_cols` order. -/
def raceCells (wnh b ai as nh ot hi : Option Int) :
    List (String × Option Int) :=
  [("white_nh", wnh), ("black_alone", b), ("aian_alone", ai),
   ("asian_alone", as), ("nhpi_alone", nh), ("other_alone", ot),
   ("hispanic", hi)]

/-- `demographics[race_cols].idxmax(axis=1)` for one row. -/
def dominantRace (wnh b ai as nh ot hi : Option Int) : Option String :=
  idxmax (raceCells wnh b ai as nh ot hi)

/-- `row.getD i` models `df.iloc[:, i]` on a `dtype=str` frame row. -/
def getCell (row : List String) (i : Nat) : String := row.getD i ""

/-- One output row of `read_pl_data` (`process_race_demo.py:89-114`). -/
structure DemoRecord where
  total_pop : Option Int
  white_alone : Option Int
  black_alone : Option Int
  aian_alone : Option Int
  asian_alone : Option Int
  nhpi_alone : Option Int
  other_alone : Option Int
  hispanic : Option Int
  GEOID : String
  County : String
  BeforeCounty : String
  AfterCounty : String
  white_nh : Option Int
  dominant_race : Option String
deriving DecidableEq, Repr

/-- The per-row body of `read_pl_data`: population counts from fixed
columns of the Part 1 row, identifiers from fixed columns of the
geographic-header row, the derived `white_nh`, and the dominant race. -/
def mkDemoRecord (geoRow p1Row : List String) : DemoRecord :=
  let white_alone := toNumeric (getCell p1Row 7)
  let black_alone := toNumeric (getCell p1Row 8)
  let aian_alone := toNumeric (getCell p1Row 9)
  let asian_alone := toNumeric (getCell p1Row 10)
  let nhpi_alone := toNumeric (getCell p1Row 11)
  let other_alone := toNumeric (getCell p1Row 12)
  let hispanic := toNumeric (getCell p1Row 73)
  let white_nh := subNA white_alone hispanic
  { total_pop := toNumeric (getCell p1Row 6)
    white_alone := white_alone
    black_alone := black_alone
    aian_alone := aian_alone
    asian_alone := asian_alone
    nhpi_alone := nhpi_alone
    other_alone := other_alone
    hispanic := hispanic
    GEOID := getCell geoRow 9
    County := (getCell geoRow 14).trim
    BeforeCounty := getCell geoRow 88
    AfterCounty := getCell geoRow 90
    white_nh := white_nh
    dominant_race :=
      dominantRace white_nh black_alone aian_alone asian_alone
        nhpi_alone other_alone hispanic }

/-- `read_pl_data` on the two parsed PL files: the geographic-header
rows and the Part 1 rows are combined position by position (pandas
aligns the column assignments at `process_race_demo.py:101-104` on the
shared default integer index). -/
def read_pl_data (geo part1 : List (List String)) : List DemoRecord :=
  (geo.zip part1).map fun p => mkDemoRecord p.1 p.2

/-- The parsed contents of a PL file: pipe-delimited rows, every cell
a string (`dtype=str`). -/
def PLData : Type := List (List String)

/-- The fixed candidate list of `read_pl_file`
(`process_race_demo.py:54`). -/
def encodings : List String := ["latin1", "iso-8859-1", "cp1252"]

/-- The `for encoding in encodings` loop of `read_pl_file`: an attempt
that fails with `UnicodeDecodeError` (`none`) falls through to the next
candidate; the decode behaviour of the host's codecs is the oracle
`attempt`, which maps an encoding name to the parsed file or a decode
failure. -/
def tryEncodings (attempt : String → Option PLData) :
    List String → Option PLData
  | [] => none
  | e :: rest =>
    match attempt e with
    | some d => some d
    | none => tryEncodings attempt rest

/-- `read_pl_file` (`process_race_demo.py:41-66`): try the three
encodings in order; if none decodes the file, raise a `ValueError`
naming the file. -/
def read_pl_file (filePath : String) (attempt : String → Option PLData) :
    Except String PLData :=
  match tryEncodings attempt encodings with
  | some d => .ok d
  | none =>
    .error ("Could not read file " ++ filePath ++
      " with any supported encoding")

/-- The opportunity renderer's `color_scheme`
(`process_opportunity.py:34-38`). -/
def opportunityColorScheme : List (Int × String) :=
  [(1, "#2ecc71"), (2, "#f1c40f"), (3, "#e74c3c")]

/-- The color of one tract in `create_opportunity_map`
(`process_opportunity.py:47`): `color_scheme.get(rank, white)`; a NaN
rank (unmatched tract) or an unlisted rank gets the default fill. -/
def opportunityColor (rank : Option Int) : String :=
  match rank with
  | some r => (lookupKey r opportunityColorScheme).getD "#FFFFFF"
  | none => "#FFFFFF"

/-- The racial renderer's `color_scheme` in its insertion order
(`process_race_demo.py:142-151`). -/
def racialColorScheme : List (String × String) :=
  [("white_nh", "#FFB6C1"), ("black_alone", "#87CEEB"),
   ("asian_alone", "#98FB98"), ("hispanic", "#DDA0DD"),
   ("aian_alone", "#F0E68C"), ("nhpi_alone", "#FFA07A"),
   ("other_alone", "#D3D3D3"), ("Unknown", "#FFFFFF")]

/-- The color of one tract in `create_racial_map`
(`process_race_demo.py:161`): the direct dict index
`color_scheme[race]`, which raises `KeyError` when the category is
absent from the mapping — there is no default. -/
def racialColor (race : String) : Except String String :=
  match lookupKey race racialColorScheme with
  | some c => .ok c
  | none => .error ("KeyError: " ++ race)

/-- A matplotlib legend `Patch`: a fill color and a label. -/
structure Patch where
  facecolor : String
  label : String
deriving DecidableEq, Repr

/-- `legend_labels` of the opportunity renderer
(`process_opportunity.py:54-58`). -/
def opportunityLegendLabels : List (Int × String) :=
  [(1, "High Opportunity Area"), (2, "Medium Opportunity Area"),
   (3, "Low Opportunity Area")]

/-- `legend_elements` of the opportunity renderer
(`process_opportunity.py:62-64`): one Patch per key of
`sorted(color_scheme.keys())` — the keys of the mapping, not the
categories present in the input. -/
def opportunity_legend_elements : List Patch :=
  ([1, 2, 3] : List Int).map fun k =>
    ⟨(lookupKey k opportunityColorScheme).getD "",
     (lookupKey k opportunityLegendLabels).getD ""⟩

/-- `legend_labels` of the racial renderer
(`process_race_demo.py:166-175`). -/
def racialLegendLabels : List (String × String) :=
  [("white_nh", "White (Non-Hispanic)"),
   ("black_alone", "Black/African American"),
   ("asian_alone", "Asian"), ("hispanic", "Hispanic/Latino"),
   ("aian_alone", "American Indian/Alaska Native"),
   ("nhpi_alone", "Native Hawaiian/Pacific Islander"),
   ("other_alone", "Other Race"), ("Unknown", "Unknown")]

/-- `legend_elements` of the racial renderer
(`process_race_demo.py:179-181`): one Patch per key of
`color_scheme.keys()` in insertion order. -/
def racial_legend_elements : List Patch :=
  (racialColorScheme.map Prod.fst).map fun k =>
    ⟨(lookupKey k racialColorScheme).getD "",
     (lookupKey k racialLegendLabels).getD ""⟩

/-- The rows of the right side matching one left row in
`DataFrame.merge(..., how=left)`: when no right key matches, the left
row is kept once with missing right-hand fields; otherwise one output
row per match, in right-side order, with no deduplication. -/
def joinRow {α β κ : Type} [DecidableEq κ] (kl : α → κ) (kr : β → κ)
    (right : List β) (x : α) : List (α × Option β) :=
  match right.filter (fun y => decide (kr y = kl x)) with
  | [] => [(x, none)]
  | ms => ms.map fun y => (x, some y)

/-- `how=left` merge: every left row expands to its `joinRow`. -/
def leftJoin {α β κ : Type} [DecidableEq κ] (kl : α → κ) (kr : β → κ)
    (left : List α) (right : List β) : List (α × Option β) :=
  match left with
  | [] => []
  | x :: rest => joinRow kl kr right x ++ leftJoin kl kr rest right

/-- A tract geometry row: the columns of the pygris GeoDataFrame the
scripts use. -/
structure TractRow where
  GEOID : String
  COUNTYFP : String
deriving DecidableEq, Repr

/-- The merge of `create_racial_map` (`process_race_demo.py:136`):
`gdf.merge(demographics, on=GEOID, how=left)`. -/
def create_racial_merge (gdf : List TractRow)
    (demographics : List DemoRecord) : List (TractRow × Option DemoRecord) :=
  leftJoin TractRow.GEOID DemoRecord.GEOID gdf demographics

/-- `Series.fillna(Unknown)` on one cell. -/
def fillnaUnknown (o : Option String) : String := o.getD "Unknown"

/-- The `dominant_race` cell of a merged row after the
`fillna(Unknown)` at `process_race_demo.py:139`: an unmatched left
row's right-hand fields are NaN, so its category is the sentinel. -/
def mergedDominantRace (p : TractRow × Option DemoRecord) : String :=
  match p.2 with
  | none => "Unknown"
  | some r => fillnaUnknown r.dominant_race

/-- A pandas DataFrame as a named-column store.  Python passes frames
by reference, so `merge_geo_roi`'s column assignments act on the
caller's object; the embedding makes the effect explicit by returning
the updated frames. -/
structure Frame where
  cols : List (String × List Value)
deriving DecidableEq, Repr

/-- `df[name]` (empty when the column is absent; the scripts only read
columns that exist). -/
def getColumn (f : Frame) (name : String) : List Value :=
  (lookupKey name f.cols).getD []

/-- `df[name] = v` on the column list: replace the (first) column of
that name, or append a new one. -/
def setCols (name : String) (v : List Value) :
    List (String × List Value) → List (String × List Value)
  | [] => [(name, v)]
  | c :: rest =>
    if c.1 = name then (name, v) :: rest else c :: setCols name v rest

/-- `df[name] = v`. -/
def setColumn (f : Frame) (name : String) (v : List Value) : Frame :=
  ⟨setCols name v f.cols⟩

/-- One in-place key normalization of `merge_geo_roi`
(`process_opportunity.py:90-91`): `df[name] = df[name].astype(str)`. -/
def normalizeColumn (f : Frame) (name : String) : Frame :=
  setColumn f name ((getColumn f name).map astypeStr)

/-- Number of rows of a frame (all columns share one length). -/
def nrows (f : Frame) : Nat :=
  match f.cols with
  | [] => 0
  | c :: _ => c.2.length

/-- Row `i` of a frame as a named-cell list. -/
def frameRow (f : Frame) (i : Nat) : List (String × Value) :=
  f.cols.map fun c => (c.1, c.2.getD i .na)

/-- The rows of a frame in order. -/
def frameRows (f : Frame) : List (List (String × Value)) :=
  (List.range (nrows f)).map (frameRow f)

/-- The value a row holds under a column name (NaN when absent). -/
def rowKey (name : String) (r : List (String × Value)) : Value :=
  (lookupKey name r).getD .na

/-- `geo.merge(roi, left_on=GEOID, right_on=FIPS, how=left)`
(`process_opportunity.py:92`). -/
def mergeFrames (geo roi : Frame) :
    List (List (String × Value) × Option (List (String × Value))) :=
  leftJoin (rowKey "GEOID") (rowKey "FIPS") (frameRows geo) (frameRows roi)

/-- `merge_geo_roi` (`process_opportunity.py:79-92`): normalize both
key columns in place, then left-join.  The first two components are
the caller's `roi` and `geo` frames after the call — mutated, since
the assignments at lines 90-91 write through the references. -/
def merge_geo_roi (roi geo : Frame) :
    Frame × Frame ×
      List (List (String × Value) × Option (List (String × Value))) :=
  let roi' := normalizeColumn roi "FIPS"
  let geo' := normalizeColumn geo "GEOID"
  (roi', geo', mergeFrames geo' roi')

/-! ## Association-list and frame lemmas -/

theorem lookupKey_mem {κ α : Type} [DecidableEq κ] {k : κ} {v : α} :
    ∀ {l : List (κ × α)}, lookupKey k l = some v → (k, v) ∈ l := by
  intro l
  induction l with
  | nil => intro h; simp [lookupKey] at h
  | cons c rest ih =>
    intro h
    obtain ⟨ck, cv⟩ := c
    by_cases hc : ck = k
    · subst hc
      simp only [lookupKey, if_pos rfl] at h
      injection h with h
      subst h
      exact List.mem_cons_self _ _
    · simp only [lookupKey] at h
      rw [if_neg hc] at h
      exact List.mem_cons_of_mem _ (ih h)

theorem lookupKey_setCols_self (n : String) (v : List Value) :
    ∀ cols, lookupKey n (setCols n v cols) = some v := by
  intro cols
  induction cols with
  | nil => simp [setCols, lookupKey]
  | cons c rest ih =>
    by_cases hc : c.1 = n
    · simp [setCols, hc, lookupKey]
    · simp [setCols, hc, lookupKey, ih]

theorem lookupKey_setCols_ne (m n : String) (v : List Value) (h : m ≠ n) :
    ∀ cols, lookupKey m (setCols n v cols) = lookupKey m cols := by
  have hnm : ¬n = m := fun e => h e.symm
  intro cols
  induction cols with
  | nil => simp [setCols, lookupKey, hnm]
  | cons c rest ih =>
    by_cases hc : c.1 = n
    · simp [setCols, hc, lookupKey, hnm]
    · simp [setCols, hc, lookupKey, ih]

theorem setCols_setCols (n : String) (v w : List Value) :
    ∀ cols, setCols n w (setCols n v cols) = setCols n w cols := by
  intro cols
  induction cols with
  | nil => simp [setCols]
  | cons c rest ih =>
    by_cases hc : c.1 = n
    · simp [setCols, hc]
    · simp [setCols, hc, ih]

theorem getColumn_setColumn_self (f : Frame) (n : String) (v : List Value) :
    getColumn (setColumn f n v) n = v := by
  simp [getColumn, setColumn, lookupKey_setCols_self]

theorem getColumn_setColumn_ne (f : Frame) (m n : String) (v : List Value)
    (h : m ≠ n) : getColumn (setColumn f n v) m = getColumn f m := by
  simp [getColumn, setColumn, lookupKey_setCols_ne m n v h]

theorem astypeStr_idem (v : Value) : astypeStr (astypeStr v) = astypeStr v := by
  cases v <;> rfl

theorem map_astypeStr_idem (l : List Value) :
    (l.map astypeStr).map astypeStr = l.map astypeStr := by
  induction l with
  | nil => rfl
  | cons v rest ih => simp [astypeStr_idem, ih]

theorem normalizeColumn_idem (f : Frame) (n : String) :
    normalizeColumn (normalizeColumn f n) n = normalizeColumn f n := by
  unfold normalizeColumn
  rw [getColumn_setColumn_self, map_astypeStr_idem]
  simp only [setColumn]
  rw [setCols_setCols]

/-! ## Claim theorems -/

/-- C1: the claim says every join key is compared as the original
identifier string with leading zeros preserved, so that "04001" is
never compared as "4001".  The code reads the ROI CSV with pandas
type inference (no `dtype=str`), so "04001" arrives as the integer
4001 and `astype(str)` yields "4001"; the geometry side keeps
"04001", and such a tract is silently left unmatched by the join. -/
theorem C1_leading_zero_collapses :
    roiJoinKey "04001" = Value.str "4001"
    ∧ geoJoinKey "04001" = Value.str "04001"
    ∧ roiJoinKey "04001" ≠ geoJoinKey "04001"
    ∧ leftJoin geoJoinKey roiJoinKey ["04001"] ["04001"] =
        [("04001", none)] := by
  refine ⟨by decide, by decide, by decide, by decide⟩

/-- C5: the PL reader tries latin1, iso-8859-1, cp1252 in that order;
a file decodable only under the third candidate is read successfully,
and when every candidate fails the reader raises an error naming the
file. -/
theorem C5_encoding_fallback (filePath : String)
    (attempt : String → Option PLData) (d : PLData) :
    (attempt "latin1" = none → attempt "iso-8859-1" = none →
      attempt "cp1252" = some d → read_pl_file filePath attempt = .ok d)
    ∧ ((∀ e ∈ encodings, attempt e = none) →
      read_pl_file filePath attempt =
        .error ("Could not read file " ++ filePath ++
          " with any supported encoding")) := by
  constructor
  · intro h1 h2 h3
    simp [read_pl_file, tryEncodings, encodings, h1, h2, h3]
  · intro h
    have h1 := h "latin1" (by simp [encodings])
    have h2 := h "iso-8859-1" (by simp [encodings])
    have h3 := h "cp1252" (by simp [encodings])
    simp [read_pl_file, tryEncodings, encodings, h1, h2, h3]

/-- Witness for C5 at a concrete decode oracle: one decodable only as
cp1252, one decodable under no candidate. -/
theorem C5_encoding_fallback_witness :
    read_pl_file "file.pl"
        (fun e => if e = "cp1252" then some [["x"]] else none) =
      .ok [["x"]]
    ∧ read_pl_file "file.pl" (fun _ => none) =
      .error "Could not read file file.pl with any supported encoding" :=
  ⟨(C5_encoding_fallback "file.pl"
      (fun e => if e = "cp1252" then some [["x"]] else none) [["x"]]).1
      rfl rfl rfl,
   (C5_encoding_fallback "file.pl" (fun _ => none) [["x"]]).2
      (fun _ _ => rfl)⟩

/-- C6: `white_nh` is `white_alone - hispanic`, unclamped, so the
result is negative whenever the Hispanic count exceeds the
white-alone count. -/
theorem C6_white_nh_unclamped (geoRow p1Row : List String) (w h : Int)
    (hw : toNumeric (getCell p1Row 7) = some w)
    (hh : toNumeric (getCell p1Row 73) = some h) :
    (mkDemoRecord geoRow p1Row).white_nh = some (w - h)
    ∧ (w < h → w - h < 0) := by
  constructor
  · show subNA (toNumeric (getCell p1Row 7)) (toNumeric (getCell p1Row 73)) =
      some (w - h)
    rw [hw, hh]
    rfl
  · omega

/-- Witness for C6: a row whose white-alone count 5 is below its
Hispanic count 12 yields the negative `white_nh` −7. -/
theorem C6_white_nh_unclamped_witness :
    (mkDemoRecord []
        ((["", "", "", "", "", "", "", "5"] ++ List.replicate 65 "") ++
          ["12"])).white_nh = some (-7)
    ∧ ((5 : Int) < 12 → (5 : Int) - 12 < 0) :=
  C6_white_nh_unclamped []
    ((["", "", "", "", "", "", "", "5"] ++ List.replicate 65 "") ++ ["12"])
    5 12 (by decide) (by decide)

/-- C9: key normalization is idempotent — `astype(str)` on one cell,
the in-place column normalization on a frame, and hence normalizing
the inputs before calling `merge_geo_roi` (which normalizes again)
changes nothing about the join result. -/
theorem C9_normalization_idempotent :
    (∀ v : Value, astypeStr (astypeStr v) = astypeStr v)
    ∧ (∀ (f : Frame) (n : String),
        normalizeColumn (normalizeColumn f n) n = normalizeColumn f n)
    ∧ (∀ roi geo : Frame,
        (merge_geo_roi (normalizeColumn roi "FIPS")
            (normalizeColumn geo "GEOID")).2.2 =
          (merge_geo_roi roi geo).2.2) := by
  refine ⟨astypeStr_idem, normalizeColumn_idem, ?_⟩
  intro roi geo
  show mergeFrames (normalizeColumn (normalizeColumn geo "GEOID") "GEOID")
      (normalizeColumn (normalizeColumn roi "FIPS") "FIPS") =
    mergeFrames (normalizeColumn geo "GEOID") (normalizeColumn roi "FIPS")
  rw [normalizeColumn_idem, normalizeColumn_idem]

/-- C10: `merge_geo_roi` mutates the caller's frames — after the call
the ROI FIPS column and the geometry GEOID column hold the
string-converted keys, while every other column of both inputs is
unchanged. -/
theorem C10_merge_mutates_inputs (roi geo : Frame) :
    getColumn (merge_geo_roi roi geo).1 "FIPS" =
      (getColumn roi "FIPS").map astypeStr
    ∧ (∀ c : String, c ≠ "FIPS" →
        getColumn (merge_geo_roi roi geo).1 c = getColumn roi c)
    ∧ getColumn (merge_geo_roi roi geo).2.1 "GEOID" =
      (getColumn geo "GEOID").map astypeStr
    ∧ (∀ c : String, c ≠ "GEOID" →
        getColumn (merge_geo_roi roi geo).2.1 c = getColumn geo c) := by
  refine ⟨?_, ?_, ?_, ?_⟩
  · exact getColumn_setColumn_self roi "FIPS" _
  · intro c hc; exact getColumn_setColumn_ne roi c "FIPS" _ hc
  · exact getColumn_setColumn_self geo "GEOID" _
  · intro c hc; exact getColumn_setColumn_ne geo c "GEOID" _ hc

/-- Witness for C10 at concrete one-column-plus-key frames: the
non-key columns rank and geometry are untouched by the merge. -/
theorem C10_merge_mutates_inputs_witness :
    getColumn (merge_geo_roi
        ⟨[("FIPS", [Value.int 4001]), ("rank", [Value.int 1])]⟩
        ⟨[("GEOID", [Value.str "04001"]), ("geometry", [Value.str "poly"])]⟩).1
        "rank" =
      getColumn ⟨[("FIPS", [Value.int 4001]), ("rank", [Value.int 1])]⟩ "rank"
    ∧ getColumn (merge_geo_roi
        ⟨[("FIPS", [Value.int 4001]), ("rank", [Value.int 1])]⟩
        ⟨[("GEOID", [Value.str "04001"]), ("geometry", [Value.str "poly"])]⟩).2.1
        "geometry" =
      getColumn ⟨[("GEOID", [Value.str "04001"]),
        ("geometry", [Value.str "poly"])]⟩ "geometry" :=
  ⟨(C10_merge_mutates_inputs _ _).2.1 "rank" (by decide),
   (C10_merge_mutates_inputs _ _).2.2.2 "geometry" (by decide)⟩

/-! ## The `idxmax` fold -/

theorem foldl_idxmaxStep_le (cells : List (String × Option Int)) (l : String)
    (v : Int) (h : ∀ c ∈ cells, ∀ w : Int, c.2 = some w → w ≤ v) :
    cells.foldl idxmaxStep (some (l, v)) = some (l, v) := by
  induction cells with
  | nil => rfl
  | cons c rest ih =>
    have hc := h c (List.mem_cons_self _ _)
    have hrest : ∀ c ∈ rest, ∀ w : Int, c.2 = some w → w ≤ v :=
      fun c hm => h c (List.mem_cons_of_mem _ hm)
    have hstep : idxmaxStep (some (l, v)) c = some (l, v) := by
      unfold idxmaxStep
      cases hcv : c.2 with
      | none => rfl
      | some w =>
        have hle : ¬w > v := not_lt.mpr (hc w hcv)
        simp [hle]
    rw [List.foldl_cons, hstep]
    exact ih hrest

theorem foldl_idxmaxStep_lt (cells : List (String × Option Int)) (v : Int)
    (h : ∀ c ∈ cells, ∀ w : Int, c.2 = some w → w < v) :
    ∀ acc : Option (String × Int),
      (acc = none ∨ ∃ a, acc = some a ∧ a.2 < v) →
      (cells.foldl idxmaxStep acc = none ∨
        ∃ a, cells.foldl idxmaxStep acc = some a ∧ a.2 < v) := by
  induction cells with
  | nil => intro acc hacc; simpa using hacc
  | cons c rest ih =>
    intro acc hacc
    have hc := h c (List.mem_cons_self _ _)
    have hrest : ∀ c ∈ rest, ∀ w : Int, c.2 = some w → w < v :=
      fun c hm => h c (List.mem_cons_of_mem _ hm)
    rw [List.foldl_cons]
    apply ih hrest
    cases hcv : c.2 with
    | none =>
      have : idxmaxStep acc c = acc := by unfold idxmaxStep; rw [hcv]
      rw [this]; exact hacc
    | some w =>
      have hw : w < v := hc w hcv
      rcases hacc with h1 | ⟨a, ha, hav⟩
      · subst h1
        right
        exact ⟨(c.1, w), by unfold idxmaxStep; rw [hcv], hw⟩
      · subst ha
        right
        by_cases hgt : w > a.2
        · exact ⟨(c.1, w), by unfold idxmaxStep; rw [hcv]; simp [hgt], hw⟩
        · exact ⟨a, by unfold idxmaxStep; rw [hcv]; simp [hgt], hav⟩

theorem idxmax_first_max (pre post : List (String × Option Int)) (l : String)
    (v : Int) (hpre : ∀ c ∈ pre, ∀ w : Int, c.2 = some w → w < v)
    (hpost : ∀ c ∈ post, ∀ w : Int, c.2 = some w → w ≤ v) :
    idxmax (pre ++ (l, some v) :: post) = some l := by
  unfold idxmax
  rw [List.foldl_append]
  rcases foldl_idxmaxStep_lt pre v hpre none (Or.inl rfl) with h1 | ⟨a, ha, hav⟩
  · rw [h1, List.foldl_cons]
    have hstep : idxmaxStep none (l, some v) = some (l, v) := rfl
    rw [hstep, foldl_idxmaxStep_le post l v hpost]
    rfl
  · rw [ha, List.foldl_cons]
    have hstep : idxmaxStep (some a) (l, some v) = some (l, v) := by
      unfold idxmaxStep
      simp [hav]
    rw [hstep, foldl_idxmaxStep_le post l v hpost]
    rfl

theorem idxmaxStep_na (acc : Option (String × Int)) (l : String) :
    idxmaxStep acc (l, none) = acc := rfl

theorem idxmaxStep_fresh (l : String) (v : Int) :
    idxmaxStep none (l, some v) = some (l, v) := rfl

theorem idxmaxStep_keep (b : String × Int) (l : String) (v : Int) :
    idxmaxStep (some b) (l, some v) =
      if v > b.2 then some (l, v) else some b := rfl

theorem foldl_idxmaxStep_fst_mem (cells : List (String × Option Int)) :
    ∀ (acc : Option (String × Int)) (a : String × Int),
      cells.foldl idxmaxStep acc = some a →
      acc = some a ∨ a.1 ∈ cells.map Prod.fst := by
  induction cells with
  | nil => intro acc a h; left; exact h
  | cons c rest ih =>
    intro acc a h
    obtain ⟨cl, cv⟩ := c
    rw [List.foldl_cons] at h
    rcases ih _ a h with h1 | h2
    · cases cv with
      | none =>
        rw [idxmaxStep_na] at h1
        left; exact h1
      | some w =>
        cases acc with
        | none =>
          rw [idxmaxStep_fresh] at h1
          injection h1 with h1
          right
          rw [← h1]
          exact List.mem_cons_self _ _
        | some b =>
          rw [idxmaxStep_keep] at h1
          by_cases hgt : w > b.2
          · rw [if_pos hgt] at h1
            injection h1 with h1
            right
            rw [← h1]
            exact List.mem_cons_self _ _
          · rw [if_neg hgt] at h1
            left; exact h1
    · right
      exact List.mem_cons_of_mem _ h2

theorem idxmax_mem (cells : List (String × Option Int)) (l : String)
    (h : idxmax cells = some l) : l ∈ cells.map Prod.fst := by
  unfold idxmax at h
  cases hr : cells.foldl idxmaxStep none with
  | none => rw [hr] at h; simp at h
  | some a =>
    rw [hr] at h
    have h' : some a.1 = some l := h
    injection h' with h'
    rcases foldl_idxmaxStep_fst_mem cells none a hr with h1 | h2
    · exact absurd h1 (by simp)
    · rw [← h']; exact h2

/-- C2: `dominant_race` is the first-in-order column attaining the
maximum value among the seven race columns in the fixed order
white_nh, black_alone, aian_alone, asian_alone, nhpi_alone,
other_alone, hispanic (ties go to the earlier column, strictly
smaller values never displace it); in particular a Part 1 row with
white_alone 80 and hispanic 10 has dominant category white_nh (count
70) whenever 70 exceeds every other category count of the row. -/
theorem C2_dominant_category :
    (∀ (wnh b ai as nh ot hi : Option Int) (l : String) (v : Int)
      (pre post : List (String × Option Int)),
      raceCells wnh b ai as nh ot hi = pre ++ (l, some v) :: post →
      (∀ c ∈ pre, ∀ w : Int, c.2 = some w → w < v) →
      (∀ c ∈ post, ∀ w : Int, c.2 = some w → w ≤ v) →
      dominantRace wnh b ai as nh ot hi = some l)
    ∧ (∀ geoRow p1Row : List String,
      getCell p1Row 7 = "80" → getCell p1Row 73 = "10" →
      (∀ j ∈ [8, 9, 10, 11, 12], ∀ w : Int,
        toNumeric (getCell p1Row j) = some w → w < 70) →
      (mkDemoRecord geoRow p1Row).dominant_race = some "white_nh") := by
  constructor
  · intro wnh b ai as nh ot hi l v pre post hsplit hpre hpost
    unfold dominantRace
    rw [hsplit]
    exact idxmax_first_max pre post l v hpre hpost
  · intro geoRow p1Row h7 h73 hothers
    show dominantRace
        (subNA (toNumeric (getCell p1Row 7)) (toNumeric (getCell p1Row 73)))
        (toNumeric (getCell p1Row 8)) (toNumeric (getCell p1Row 9))
        (toNumeric (getCell p1Row 10)) (toNumeric (getCell p1Row 11))
        (toNumeric (getCell p1Row 12)) (toNumeric (getCell p1Row 73)) =
      some "white_nh"
    rw [h7, h73]
    have hsub : subNA (toNumeric "80") (toNumeric "10") = some 70 := by decide
    rw [hsub]
    unfold dominantRace
    have hsplit : raceCells (some 70) (toNumeric (getCell p1Row 8))
        (toNumeric (getCell p1Row 9)) (toNumeric (getCell p1Row 10))
        (toNumeric (getCell p1Row 11)) (toNumeric (getCell p1Row 12))
        (toNumeric "10") =
      [] ++ ("white_nh", some 70) ::
        [("black_alone", toNumeric (getCell p1Row 8)),
         ("aian_alone", toNumeric (getCell p1Row 9)),
         ("asian_alone", toNumeric (getCell p1Row 10)),
         ("nhpi_alone", toNumeric (getCell p1Row 11)),
         ("other_alone", toNumeric (getCell p1Row 12)),
         ("hispanic", toNumeric "10")] := rfl
    rw [hsplit]
    apply idxmax_first_max
    · intro c hc w hw
      simp at hc
    · intro c hc w hw
      simp only [List.mem_cons, List.not_mem_nil, or_false] at hc
      rcases hc with hc | hc | hc | hc | hc | hc <;> subst hc
      · exact le_of_lt (hothers 8 (by simp) w hw)
      · exact le_of_lt (hothers 9 (by simp) w hw)
      · exact le_of_lt (hothers 10 (by simp) w hw)
      · exact le_of_lt (hothers 11 (by simp) w hw)
      · exact le_of_lt (hothers 12 (by simp) w hw)
      · have hw' : some (10 : Int) = some w := hw
        injection hw' with hw'
        omega

/-- Witness for C2: a Part 1 row with white_alone 80, hispanic 10 and
every other race cell blank (NaN) has dominant category white_nh. -/
theorem C2_dominant_category_witness :
    (mkDemoRecord []
        ((["", "", "", "", "", "", "", "80"] ++ List.replicate 65 "") ++
          ["10"])).dominant_race = some "white_nh" :=
  C2_dominant_category.2 []
    ((["", "", "", "", "", "", "", "80"] ++ List.replicate 65 "") ++ ["10"])
    (by decide) (by decide)
    (by
      intro j hj w hw
      have hn : toNumeric (getCell
          ((["", "", "", "", "", "", "", "80"] ++ List.replicate 65 "") ++
            ["10"]) j) = none := by
        fin_cases hj <;> decide
      rw [hn] at hw
      cases hw)

/-! ## Left-join counting -/

theorem joinRow_of_filter_nil {α β κ : Type} [DecidableEq κ] (kl : α → κ)
    (kr : β → κ) (right : List β) (x : α)
    (h : right.filter (fun y => decide (kr y = kl x)) = []) :
    joinRow kl kr right x = [(x, none)] := by
  unfold joinRow
  rw [h]

theorem joinRow_of_filter_cons {α β κ : Type} [DecidableEq κ] (kl : α → κ)
    (kr : β → κ) (right : List β) (x : α) (m : β) (ms : List β)
    (h : right.filter (fun y => decide (kr y = kl x)) = m :: ms) :
    joinRow kl kr right x = (m :: ms).map fun y => (x, some y) := by
  unfold joinRow
  rw [h]

theorem joinRow_fst {α β κ : Type} [DecidableEq κ] (kl : α → κ) (kr : β → κ)
    (right : List β) (x : α) :
    ∀ p ∈ joinRow kl kr right x, p.1 = x := by
  intro p hp
  cases hf : right.filter (fun y => decide (kr y = kl x)) with
  | nil =>
    rw [joinRow_of_filter_nil kl kr right x hf] at hp
    simp at hp
    rw [hp]
  | cons m ms =>
    rw [joinRow_of_filter_cons kl kr right x m ms hf] at hp
    rcases List.mem_map.mp hp with ⟨y, _, hy⟩
    rw [← hy]

theorem joinRow_length {α β κ : Type} [DecidableEq κ] (kl : α → κ)
    (kr : β → κ) (right : List β) (x : α) :
    (joinRow kl kr right x).length =
      max 1 (right.countP (fun y => decide (kr y = kl x))) := by
  rw [List.countP_eq_length_filter]
  cases hf : right.filter (fun y => decide (kr y = kl x)) with
  | nil => rw [joinRow_of_filter_nil kl kr right x hf]; simp
  | cons m ms =>
    rw [joinRow_of_filter_cons kl kr right x m ms hf]
    have hle : (1 : Nat) ≤ ms.length + 1 := Nat.succ_le_succ (Nat.zero_le _)
    simp [Nat.max_eq_right hle]

theorem countP_joinRow_self {α β κ : Type} [DecidableEq α] [DecidableEq κ]
    (kl : α → κ) (kr : β → κ) (right : List β) (x : α) :
    (joinRow kl kr right x).countP (fun p => decide (p.1 = x)) =
      (joinRow kl kr right x).length := by
  rw [List.countP_eq_length]
  intro p hp
  simp [joinRow_fst kl kr right x p hp]

theorem countP_joinRow_ne {α β κ : Type} [DecidableEq α] [DecidableEq κ]
    (kl : α → κ) (kr : β → κ) (right : List β) (a x : α) (hne : a ≠ x) :
    (joinRow kl kr right a).countP (fun p => decide (p.1 = x)) = 0 := by
  rw [List.countP_eq_zero]
  intro p hp
  simp [joinRow_fst kl kr right a p hp, hne]

theorem leftJoin_countP {α β κ : Type} [DecidableEq α] [DecidableEq κ]
    (kl : α → κ) (kr : β → κ) (left : List α) (right : List β) (x : α) :
    (leftJoin kl kr left right).countP (fun p => decide (p.1 = x)) =
      left.count x * max 1 (right.countP (fun y => decide (kr y = kl x))) := by
  induction left with
  | nil => simp [leftJoin]
  | cons a rest ih =>
    rw [show leftJoin kl kr (a :: rest) right =
      joinRow kl kr right a ++ leftJoin kl kr rest right from rfl]
    rw [List.countP_append, ih]
    by_cases hax : a = x
    · subst hax
      rw [countP_joinRow_self, joinRow_length, List.count_cons_self]
      ring
    · rw [countP_joinRow_ne kl kr right a x hax,
        List.count_cons_of_ne (Ne.symm hax)]
      simp

/-- C3: the merge is a left outer join — over the racial-map merge,
the number of output rows carrying a given left row equals its
multiplicity in the left input times `max 1 (number of key matches)`,
so every left row survives; an unmatched left row yields exactly one
row, whose category after `fillna` is the sentinel Unknown; a left
row matching two right rows yields exactly the two paired rows, with
no deduplication. -/
theorem C3_left_join_semantics (gdf : List TractRow)
    (demos : List DemoRecord) (x : TractRow) :
    ((create_racial_merge gdf demos).countP (fun p => decide (p.1 = x)) =
      gdf.count x * max 1 (demos.countP (fun d => decide (d.GEOID = x.GEOID))))
    ∧ (demos.countP (fun d => decide (d.GEOID = x.GEOID)) = 0 →
        joinRow TractRow.GEOID DemoRecord.GEOID demos x = [(x, none)]
        ∧ mergedDominantRace (x, none) = "Unknown")
    ∧ (∀ d1 d2 : DemoRecord, demos = [d1, d2] →
        d1.GEOID = x.GEOID → d2.GEOID = x.GEOID →
        joinRow TractRow.GEOID DemoRecord.GEOID demos x =
          [(x, some d1), (x, some d2)]) := by
  refine ⟨?_, ?_, ?_⟩
  · exact leftJoin_countP _ _ gdf demos x
  · intro h0
    refine ⟨?_, rfl⟩
    apply joinRow_of_filter_nil
    rw [List.countP_eq_length_filter] at h0
    exact List.length_eq_zero.mp h0
  · intro d1 d2 hd h1 h2
    subst hd
    have hf : [d1, d2].filter
        (fun y => decide (y.GEOID = x.GEOID)) = [d1, d2] := by
      simp [List.filter, h1, h2]
    rw [joinRow_of_filter_cons _ _ _ _ _ _ hf]
    rfl

/-- Witness for C3: a tract with no matching demographic row keeps one
output row with the Unknown sentinel; with two identically keyed
demographic rows it appears twice. -/
theorem C3_left_join_semantics_witness :
    (joinRow TractRow.GEOID DemoRecord.GEOID ([] : List DemoRecord)
        ⟨"A", "B"⟩ = [(⟨"A", "B"⟩, none)]
      ∧ mergedDominantRace (⟨"A", "B"⟩, none) = "Unknown")
    ∧ joinRow TractRow.GEOID DemoRecord.GEOID
        [⟨none, none, none, none, none, none, none, none,
          "A", "", "", "", none, none⟩,
         ⟨none, none, none, none, none, none, none, none,
          "A", "", "", "", none, none⟩] ⟨"A", "B"⟩ =
      [(⟨"A", "B"⟩, some ⟨none, none, none, none, none, none, none, none,
          "A", "", "", "", none, none⟩),
       (⟨"A", "B"⟩, some ⟨none, none, none, none, none, none, none, none,
          "A", "", "", "", none, none⟩)] :=
  ⟨(C3_left_join_semantics [] [] ⟨"A", "B"⟩).2.1 rfl,
   (C3_left_join_semantics []
      [⟨none, none, none, none, none, none, none, none,
        "A", "", "", "", none, none⟩,
       ⟨none, none, none, none, none, none, none, none,
        "A", "", "", "", none, none⟩] ⟨"A", "B"⟩).2.2 _ _ rfl rfl rfl⟩

/-- C4 counterexample: the claim says an unmapped category is never a
fatal error, but the racial renderer colors tracts with the direct
dict index `color_scheme[race]`, which raises `KeyError` for a
category absent from the mapping. -/
theorem C4_unmapped_category_counterexample :
    racialColor "martian" = Except.error "KeyError: martian" := rfl

/-- C4 amended: the opportunity renderer draws an unmapped (or NaN)
rank with the default fill white and is not fatal; the racial
renderer would raise `KeyError` on an unmapped category, but every
category its pipeline can produce — `Unknown` or one of the seven
race columns — is in its mapping, so its color lookup succeeds. -/
theorem C4_unmapped_category_default :
    (∀ r : Int, lookupKey r opportunityColorScheme = none →
      opportunityColor (some r) = "#FFFFFF")
    ∧ opportunityColor none = "#FFFFFF"
    ∧ (∀ geoRow p1Row : List String, ∃ c,
        racialColor
          (fillnaUnknown (mkDemoRecord geoRow p1Row).dominant_race) =
          .ok c) := by
  refine ⟨?_, rfl, ?_⟩
  · intro r hr
    simp [opportunityColor, hr]
  · intro geoRow p1Row
    cases hd : (mkDemoRecord geoRow p1Row).dominant_race with
    | none => exact ⟨"#FFFFFF", rfl⟩
    | some l =>
      have hm : idxmax (raceCells
          (subNA (toNumeric (getCell p1Row 7)) (toNumeric (getCell p1Row 73)))
          (toNumeric (getCell p1Row 8)) (toNumeric (getCell p1Row 9))
          (toNumeric (getCell p1Row 10)) (toNumeric (getCell p1Row 11))
          (toNumeric (getCell p1Row 12)) (toNumeric (getCell p1Row 73))) =
        some l := hd
      have hmem := idxmax_mem _ _ hm
      simp [raceCells] at hmem
      rcases hmem with h | h | h | h | h | h | h <;> subst h <;> exact ⟨_, rfl⟩

/-- Witness for C4: the unlisted rank 4 is drawn with the default
fill. -/
theorem C4_unmapped_category_default_witness :
    opportunityColor (some 4) = "#FFFFFF" :=
  C4_unmapped_category_default.1 4 rfl

/-- C7 counterexample: the claim says every category present in the
merged input appears in the legend, but the legends are built from
the mapping keys only — a merged input containing rank 4 has no
legend Patch whose color is the color rank 4 is drawn with. -/
theorem C7_legend_counterexample :
    some 4 ∈ ([some 1, some 4] : List (Option Int))
    ∧ opportunity_legend_elements.filter
        (fun p => decide (p.facecolor = opportunityColor (some 4))) = [] := by
  exact ⟨by simp, rfl⟩

/-- C7 amended: the legends contain one Patch per key of the color
mapping, so every category present in the merged input that is in
the mapping appears in the legend with its mapped color; a present
category outside the mapping (possible for the opportunity renderer,
whose ranks come from an arbitrary CSV) does not appear. -/
theorem C7_legend_covers_mapped :
    (∀ (ranks : List (Option Int)) (r : Int) (color : String),
      some r ∈ ranks → lookupKey r opportunityColorScheme = some color →
      opportunity_legend_elements.any
        (fun p => decide (p.facecolor = color)) = true)
    ∧ (∀ (cats : List String) (c color : String),
      c ∈ cats → lookupKey c racialColorScheme = some color →
      racial_legend_elements.any
        (fun p => decide (p.facecolor = color)) = true) := by
  constructor
  · intro ranks r color _ hl
    have hmem := lookupKey_mem hl
    have key : ∀ kc ∈ opportunityColorScheme,
        opportunity_legend_elements.any
          (fun p => decide (p.facecolor = kc.2)) = true := by decide
    exact key (r, color) hmem
  · intro cats c color _ hl
    have hmem := lookupKey_mem hl
    have key : ∀ kc ∈ racialColorScheme,
        racial_legend_elements.any
          (fun p => decide (p.facecolor = kc.2)) = true := by decide
    exact key (c, color) hmem

/-- Witness for C7: rank 2 present in an input appears in the
opportunity legend with its yellow; category hispanic appears in the
racial legend with its plum. -/
theorem C7_legend_covers_mapped_witness :
    opportunity_legend_elements.any
        (fun p => decide (p.facecolor = "#f1c40f")) = true
    ∧ racial_legend_elements.any
        (fun p => decide (p.facecolor = "#DDA0DD")) = true :=
  ⟨C7_legend_covers_mapped.1 [some 2] 2 "#f1c40f" (by simp) rfl,
   C7_legend_covers_mapped.2 ["hispanic"] "hispanic" "#DDA0DD" (by simp) rfl⟩

/-- C8: the extractor aligns the two PL files row-for-row by file
order with no join key — output record `i` combines the population
counts from fixed columns 6-12 and 73 of Part 1 row `i` with the
identifier, county name and adjacency fields from fixed columns 9,
14, 88 and 90 of geographic-header row `i`. -/
theorem C8_row_alignment (geo part1 : List (List String)) (i : Nat)
    (h1 : i < geo.length) (h2 : i < part1.length) :
    (read_pl_data geo part1)[i]? = some (mkDemoRecord geo[i] part1[i])
    ∧ (mkDemoRecord geo[i] part1[i]).total_pop = toNumeric (getCell part1[i] 6)
    ∧ (mkDemoRecord geo[i] part1[i]).white_alone = toNumeric (getCell part1[i] 7)
    ∧ (mkDemoRecord geo[i] part1[i]).black_alone = toNumeric (getCell part1[i] 8)
    ∧ (mkDemoRecord geo[i] part1[i]).aian_alone = toNumeric (getCell part1[i] 9)
    ∧ (mkDemoRecord geo[i] part1[i]).asian_alone = toNumeric (getCell part1[i] 10)
    ∧ (mkDemoRecord geo[i] part1[i]).nhpi_alone = toNumeric (getCell part1[i] 11)
    ∧ (mkDemoRecord geo[i] part1[i]).other_alone = toNumeric (getCell part1[i] 12)
    ∧ (mkDemoRecord geo[i] part1[i]).hispanic = toNumeric (getCell part1[i] 73)
    ∧ (mkDemoRecord geo[i] part1[i]).GEOID = getCell geo[i] 9
    ∧ (mkDemoRecord geo[i] part1[i]).County = (getCell geo[i] 14).trim
    ∧ (mkDemoRecord geo[i] part1[i]).BeforeCounty = getCell geo[i] 88
    ∧ (mkDemoRecord geo[i] part1[i]).AfterCounty = getCell geo[i] 90 := by
  refine ⟨?_, rfl, rfl, rfl, rfl, rfl, rfl, rfl, rfl, rfl, rfl, rfl, rfl⟩
  have hlen : i < (read_pl_data geo part1).length := by
    simp only [read_pl_data, List.length_map, List.length_zip]
    omega
  rw [List.getElem?_eq_getElem hlen]
  simp [read_pl_data]

/-- Witness for C8 at concrete one-row files: the single output
record takes its GEOID from column 9 of the geographic-header row and
its total population from column 6 of the Part 1 row. -/
theorem C8_row_alignment_witness :
    (read_pl_data [["0", "1", "2", "3", "4", "5", "6", "7", "8", "G"]]
        [["", "", "", "", "", "", "7"]])[0]? =
      some (mkDemoRecord ["0", "1", "2", "3", "4", "5", "6", "7", "8", "G"]
        ["", "", "", "", "", "", "7"])
    ∧ (mkDemoRecord ["0", "1", "2", "3", "4", "5", "6", "7", "8", "G"]
        ["", "", "", "", "", "", "7"]).GEOID = "G"
    ∧ (mkDemoRecord ["0", "1", "2", "3", "4", "5", "6", "7", "8", "G"]
        ["", "", "", "", "", "", "7"]).total_pop = some 7 := by
  have h := C8_row_alignment
    [["0", "1", "2", "3", "4", "5", "6", "7", "8", "G"]]
    [["", "", "", "", "", "", "7"]] 0 (by decide) (by decide)
  exact ⟨h.1, h.2.2.2.2.2.2.2.2.2.1, h.2.1⟩

end TSA
